import Mathlib

/-!
Verification of the pdf_page_splitter core logic (src/app.py).

The two core functions are embedded shallowly:

* `parse_page_spec` models the Python function of the same name: it splits
  the spec string on commas, strips whitespace from each token, skips empty
  tokens, and parses each remaining token either as an `a-b` range (split at
  the first dash) or as a single integer, using a model `pyInt` of Python's
  base-10 `int()` conversion (optional surrounding whitespace, optional
  sign, digit groups separated by single underscores).  Python exceptions
  are modelled with `Except`.

* `extract_pages_from_pdf` models the Python function of the same name over
  an abstract parsed document `PdfDoc`: an encryption flag, a flag saying
  whether decryption with the empty password succeeds, and the page list.
  Pages are an arbitrary type `α`.  The pypdf serialization step is not
  modelled byte-for-byte; the output is the built document (its page list
  and the metadata the code attaches), which is what the claims constrain.

Strings are modelled as `List Char` (the code only manipulates them as
character sequences).
-/

deriving instance DecidableEq for Except

namespace PdfPageSplitter

/-- The whitespace characters stripped by Python `str.strip()` (ASCII part),
which is also what `int()` tolerates around a literal. -/
def isPySpace (c : Char) : Bool :=
  c = ' ' || c = '\t' || c = '\n' || c = '\r' || c = '\x0b' || c = '\x0c'

/-- Python `s.strip()`: drop leading and trailing whitespace. -/
def pyStrip (l : List Char) : List Char :=
  ((l.dropWhile isPySpace).reverse.dropWhile isPySpace).reverse

/-- Python `s.split(sep)` for a one-character separator: always returns at
least one (possibly empty) piece; `"1,,3"` gives `["1","","3"]`. -/
def splitChar (sep : Char) : List Char → List (List Char)
  | [] => [[]]
  | c :: rest =>
    if c = sep then [] :: splitChar sep rest
    else
      match splitChar sep rest with
      | [] => [[c]]
      | t :: ts => (c :: t) :: ts

/-- Python `s.split(sep, 1)` at the first occurrence of `sep`, as the pair
of the part before and the part after.  The code only calls this when `sep`
occurs in the string, so the no-occurrence fallback pairs the whole string
with an empty remainder. -/
def splitFirst (sep : Char) : List Char → List Char × List Char
  | [] => ([], [])
  | c :: rest =>
    if c = sep then ([], rest)
    else
      let p := splitFirst sep rest
      (c :: p.1, p.2)

/-- Numeric value of a decimal digit character. -/
def digitVal (c : Char) : Nat := c.toNat - '0'.toNat

/-- Value of a string of decimal digits, most significant first. -/
def digitsToNat (l : List Char) : Nat :=
  l.foldl (fun acc c => 10 * acc + digitVal c) 0

/-- Python `int()` digit-part validity: nonempty groups of decimal digits
separated by single underscores (`"12"`, `"1_2"` valid; `""`, `"_1"`,
`"1_"`, `"1__2"` invalid). -/
def validDigits (l : List Char) : Bool :=
  !l.isEmpty && (splitChar '_' l).all (fun g => !g.isEmpty && g.all Char.isDigit)

/-- Model of Python base-10 `int(s)` on a string: strip whitespace, read an
optional sign, then a valid digit part; `none` models `ValueError`. -/
def pyInt (l : List Char) : Option Int :=
  match pyStrip l with
  | '+' :: rest =>
    if validDigits rest then some (Int.ofNat (digitsToNat (rest.filter (fun c => c ≠ '_')))) else none
  | '-' :: rest =>
    if validDigits rest then some (-(Int.ofNat (digitsToNat (rest.filter (fun c => c ≠ '_'))))) else none
  | rest =>
    if validDigits rest then some (Int.ofNat (digitsToNat (rest.filter (fun c => c ≠ '_')))) else none

/-- Python `list(range(start, end + step, step))` with
`step = 1 if start <= end else -1`: the inclusive sequence from `start` to
`stop`, ascending or descending. -/
def rangeIncl (start stop : Int) : List Int :=
  if start ≤ stop then
    (List.range (stop - start + 1).toNat).map (fun i : Nat => start + (i : Int))
  else
    (List.range (start - stop + 1).toNat).map (fun i : Nat => start - (i : Int))

/-- A malformed token: the payload is the substring Python's `int()` choked
on (as named in the `ValueError` message). -/
inductive ParseError where
  | invalidInt : List Char → ParseError
deriving DecidableEq

/-- The body of the loop of `parse_page_spec` on one stripped, nonempty
token: a token containing a dash is split at the first dash and both sides
must parse as integers, producing the inclusive range; otherwise the token
itself must parse as a single integer. -/
def parseToken (part : List Char) : Except ParseError (List Int) :=
  if part.contains '-' then
    let p := splitFirst '-' part
    match pyInt p.1, pyInt p.2 with
    | some a, some b => .ok (rangeIncl a b)
    | none, _ => .error (.invalidInt p.1)
    | some _, none => .error (.invalidInt p.2)
  else
    match pyInt part with
    | some n => .ok [n]
    | none => .error (.invalidInt part)

/-- The loop of `parse_page_spec` over the comma-separated tokens: strip
each token, skip the ones that become empty, parse the rest in order and
concatenate; the first bad token aborts with its error, as the Python
exception does. -/
def parseParts : List (List Char) → Except ParseError (List Int)
  | [] => .ok []
  | part :: rest =>
    let p := pyStrip part
    if p.isEmpty then parseParts rest
    else
      match parseToken p with
      | .error e => .error e
      | .ok xs =>
        match parseParts rest with
        | .error e => .error e
        | .ok ys => .ok (xs ++ ys)

/-- `parse_page_spec` from src/app.py: the empty string yields `[]`
(`if not spec`), otherwise the string is split on commas and the tokens are
processed in order. -/
def parse_page_spec (spec : List Char) : Except ParseError (List Int) :=
  if spec.isEmpty then .ok []
  else parseParts (splitChar ',' spec)

/-- Errors of `extract_pages_from_pdf`: the `RuntimeError` raised when the
document is encrypted and the empty-password decryption attempt fails, and
the `ValueError` raised for an out-of-range page, carrying the offending
1-based page number and the total page count (the message names
`Page {p} is out of range (1..{total_pages})`). -/
inductive PdfError where
  | encryptedDocument : PdfError
  | outOfRange : Int → Nat → PdfError
deriving DecidableEq

/-- The source document as pypdf's `PdfReader` exposes it to the code:
whether it is encrypted, whether `decrypt("")` succeeds on it, and its page
sequence (page contents are an arbitrary type `α`). -/
structure PdfDoc (α : Type) where
  encrypted : Bool
  emptyPasswordWorks : Bool
  pages : List α
deriving DecidableEq

/-- The built output document (pypdf `PdfWriter` state at serialization
time): the appended pages in order, plus the metadata the code attaches. -/
structure OutDoc (α : Type) where
  pages : List α
  title : List Char
  producer : List Char
deriving DecidableEq

/-- A document the code can read: either not encrypted, or encrypted but
unlockable with the empty password. -/
def readable {α : Type} (doc : PdfDoc α) : Prop :=
  doc.encrypted = false ∨ doc.emptyPasswordWorks = true

instance {α : Type} (doc : PdfDoc α) : Decidable (readable doc) := by
  unfold readable; infer_instance

/-- `extract_pages_from_pdf` from src/app.py: if the reader is encrypted,
try the empty password and fail with `encryptedDocument` if that fails;
then validate every entry of the page list against `1..total_pages`,
failing with `outOfRange` at the first violation; only then build the
writer by appending, for each `p` in order, the source page at 0-based
index `p - 1`, and attach the metadata.  (pypdf serialization of the
writer to bytes is a pure function of this result and is not re-modelled;
a page index is looked up with `get?`, whose fallback `default` is
unreachable once validation has passed.) -/
def extract_pages_from_pdf {α : Type} [Inhabited α] (doc : PdfDoc α)
    (pages_1based : List Int) : Except PdfError (OutDoc α) :=
  if doc.encrypted && !doc.emptyPasswordWorks then
    .error .encryptedDocument
  else
    let total := doc.pages.length
    match pages_1based.find? (fun p => p < 1 || p > (total : Int)) with
    | some p => .error (.outOfRange p total)
    | none =>
      .ok { pages := pages_1based.map (fun p => (doc.pages[(p - 1).toNat]?).getD default)
            title := "Extracted Pages".data
            producer := "pypdf".data }

example : parse_page_spec "".data = .ok [] := by decide
example : parse_page_spec "1,3-5,10".data = .ok [1, 3, 4, 5, 10] := by decide
example : parse_page_spec "7-4".data = .ok [7, 6, 5, 4] := by decide
example : parse_page_spec "2,2,2".data = .ok [2, 2, 2] := by decide
example : parse_page_spec "1,,3".data = .ok [1, 3] := by decide
example : parse_page_spec "x".data = .error (.invalidInt "x".data) := by decide
example : parse_page_spec "a-3".data = .error (.invalidInt "a".data) := by decide
example : parse_page_spec "-3".data = .error (.invalidInt []) := by decide
example : parse_page_spec "3-".data = .error (.invalidInt []) := by decide
example : parse_page_spec "3--1".data = .ok [3, 2, 1, 0, -1] := by decide
example : parse_page_spec " 1 , 2 ".data = .ok [1, 2] := by decide

example :
    extract_pages_from_pdf (PdfDoc.mk false false [10, 20, 30]) [3, 1]
      = .ok (OutDoc.mk [30, 10] "Extracted Pages".data "pypdf".data) := by decide
example :
    extract_pages_from_pdf (PdfDoc.mk false false [10, 20, 30]) [4]
      = .error (.outOfRange 4 3) := by decide
example :
    extract_pages_from_pdf (PdfDoc.mk true false [10, 20, 30]) [1]
      = .error .encryptedDocument := by decide
example :
    extract_pages_from_pdf (PdfDoc.mk true true [10, 20, 30]) [2]
      = .ok (OutDoc.mk [20] "Extracted Pages".data "pypdf".data) := by decide
example :
    extract_pages_from_pdf (PdfDoc.mk false false [10, 20, 30]) [-1]
      = .error (.outOfRange (-1) 3) := by decide

/-- Success equation for `extract_pages_from_pdf`: on a readable document,
once the range scan finds no offender, the result is the built document. -/
theorem extract_ok {α : Type} [Inhabited α] (doc : PdfDoc α) (l : List Int)
    (hcond : (doc.encrypted && !doc.emptyPasswordWorks) = false)
    (hfind : l.find? (fun p => p < 1 || p > ((doc.pages.length : Int))) = none) :
    extract_pages_from_pdf doc l =
      .ok ⟨l.map (fun p => (doc.pages[(p - 1).toNat]?).getD default),
           "Extracted Pages".data, "pypdf".data⟩ := by
  simp only [extract_pages_from_pdf, hcond, Bool.false_eq_true, if_false, hfind]

/-- Error equation for `extract_pages_from_pdf`: on a readable document,
the first out-of-range entry found aborts with `outOfRange`. -/
theorem extract_err {α : Type} [Inhabited α] (doc : PdfDoc α) (l : List Int) (q : Int)
    (hcond : (doc.encrypted && !doc.emptyPasswordWorks) = false)
    (hfind : l.find? (fun p => p < 1 || p > ((doc.pages.length : Int))) = some q) :
    extract_pages_from_pdf doc l = .error (.outOfRange q doc.pages.length) := by
  simp only [extract_pages_from_pdf, hcond, Bool.false_eq_true, if_false, hfind]

/-- C1: on a valid (readable) source and a page list whose entries all lie
in `[1, totalPages]`, extraction succeeds and the output has one page per
list entry, the page at output position `i` being the source page at
0-based index `p - 1` where `p` is entry `i` of the list. -/
theorem extract_pages_selects_in_order {α : Type} [Inhabited α]
    (doc : PdfDoc α) (l : List Int) (hr : readable doc)
    (hall : ∀ p ∈ l, 1 ≤ p ∧ p ≤ (doc.pages.length : Int)) :
    ∃ out : OutDoc α, extract_pages_from_pdf doc l = .ok out ∧
      out.pages.length = l.length ∧
      ∀ (i : Nat) (p : Int), l[i]? = some p →
        out.pages[i]? = doc.pages[(p - 1).toNat]? := by
  have hcond : (doc.encrypted && !doc.emptyPasswordWorks) = false := by
    rcases hr with h | h <;> simp [h]
  have hfind : l.find? (fun p => p < 1 || p > ((doc.pages.length : Int))) = none := by
    refine List.find?_eq_none.mpr fun p hp => ?_
    have := hall p hp
    simp only [Bool.or_eq_true, decide_eq_true_eq, not_or]
    omega
  refine ⟨_, extract_ok doc l hcond hfind, by simp, ?_⟩
  intro i p hip
  have hmem : p ∈ l := by
    obtain ⟨hn, rfl⟩ := List.getElem?_eq_some.mp hip
    exact List.getElem_mem hn
  obtain ⟨h1, h2⟩ := hall p hmem
  have hlt : p.toNat - 1 < doc.pages.length := by omega
  obtain ⟨x, hx⟩ : ∃ x, doc.pages[p.toNat - 1]? = some x :=
    ⟨_, List.getElem?_eq_getElem hlt⟩
  simp [List.getElem?_map, hip, hx]

/-- Closed instance of C1: a 3-page document `[10, 20, 30]` with page list
`[3, 1]` yields a 2-page output whose page 1 is the third source page and
whose page 2 is the first. -/
theorem extract_pages_selects_in_order_witness :
    ∃ out : OutDoc Nat,
      extract_pages_from_pdf (PdfDoc.mk false false [10, 20, 30]) [3, 1] = .ok out ∧
      out.pages.length = ([3, 1] : List Int).length ∧
      ∀ (i : Nat) (p : Int), ([3, 1] : List Int)[i]? = some p →
        out.pages[i]? = ([10, 20, 30] : List Nat)[(p - 1).toNat]? :=
  extract_pages_selects_in_order (PdfDoc.mk false false [10, 20, 30]) [3, 1]
    (Or.inl rfl) (by decide)

/-- C2: on a readable source, extraction fails with `outOfRange` exactly
when some list entry is below 1 or above the page count; the error carries
an offending entry together with the total page count, and failure means no
output document is produced. -/
theorem extract_pages_out_of_range_iff {α : Type} [Inhabited α]
    (doc : PdfDoc α) (l : List Int) (hr : readable doc) :
    ((∃ p ∈ l, p < 1 ∨ p > (doc.pages.length : Int)) ↔
      ∃ p, extract_pages_from_pdf doc l = .error (.outOfRange p doc.pages.length)) ∧
    (∀ p t, extract_pages_from_pdf doc l = .error (.outOfRange p t) →
      p ∈ l ∧ (p < 1 ∨ p > (t : Int)) ∧ t = doc.pages.length) := by
  have hcond : (doc.encrypted && !doc.emptyPasswordWorks) = false := by
    rcases hr with h | h <;> simp [h]
  cases hf : l.find? (fun p => p < 1 || p > ((doc.pages.length : Int))) with
  | none =>
    have hok := extract_ok doc l hcond hf
    constructor
    · constructor
      · rintro ⟨p, hp, hb⟩
        exfalso
        have := List.find?_eq_none.mp hf p hp
        simp only [Bool.or_eq_true, decide_eq_true_eq, not_or] at this
        omega
      · rintro ⟨p, hp⟩
        rw [hok] at hp
        cases hp
    · intro p t h
      rw [hok] at h
      cases h
  | some q =>
    have herr := extract_err doc l q hcond hf
    have hqmem := List.mem_of_find?_eq_some hf
    have hq := List.find?_some hf
    simp only [Bool.or_eq_true, decide_eq_true_eq] at hq
    constructor
    · exact ⟨fun _ => ⟨q, herr⟩, fun _ => ⟨q, hqmem, hq⟩⟩
    · intro p t h
      rw [herr] at h
      injection h with h'
      injection h' with hpq htq
      exact hpq ▸ htq ▸ ⟨hqmem, hq, rfl⟩

/-- Closed instance of C2 on a 1-page document with the out-of-range
request `[5]`. -/
theorem extract_pages_out_of_range_iff_witness :
    ((∃ p ∈ ([5] : List Int), p < 1 ∨ p > (1 : Int)) ↔
      ∃ p, extract_pages_from_pdf (PdfDoc.mk false true [10]) [5]
        = .error (.outOfRange p 1)) ∧
    (∀ p t, extract_pages_from_pdf (PdfDoc.mk false true [10]) [5]
        = .error (.outOfRange p t) →
      p ∈ ([5] : List Int) ∧ (p < 1 ∨ p > (t : Int)) ∧ t = 1) :=
  extract_pages_out_of_range_iff (PdfDoc.mk false true [10]) [5] (Or.inr rfl)

/-- C6: an encrypted source on which the empty-password decryption attempt
fails makes extraction fail with `encryptedDocument`; no document (empty,
corrupt or otherwise) is ever returned in that case. -/
theorem extract_pages_encrypted {α : Type} [Inhabited α]
    (doc : PdfDoc α) (l : List Int)
    (he : doc.encrypted = true) (hw : doc.emptyPasswordWorks = false) :
    extract_pages_from_pdf doc l = .error .encryptedDocument ∧
    ∀ out, extract_pages_from_pdf doc l ≠ .ok out := by
  have h : extract_pages_from_pdf doc l = .error .encryptedDocument := by
    simp [extract_pages_from_pdf, he, hw]
  exact ⟨h, fun out hout => by rw [h] at hout; cases hout⟩

/-- Closed instance of C6: a locked encrypted document fails. -/
theorem extract_pages_encrypted_witness :
    extract_pages_from_pdf (PdfDoc.mk true false ([] : List Nat)) [1]
      = .error .encryptedDocument ∧
    ∀ out, extract_pages_from_pdf (PdfDoc.mk true false ([] : List Nat)) [1]
      ≠ .ok out :=
  extract_pages_encrypted (PdfDoc.mk true false ([] : List Nat)) [1] rfl rfl

/-- C9: extraction is deterministic — two calls on identical parsed sources
and identical page lists return identical results (the embedding has no
clock, so the timestamp carve-out of the claim is vacuous here). -/
theorem extract_pages_deterministic {α : Type} [Inhabited α]
    (d e : PdfDoc α) (l m : List Int) (hd : d = e) (hl : l = m) :
    extract_pages_from_pdf d l = extract_pages_from_pdf e m := by
  rw [hd, hl]

/-- Closed instance of C9 at a concrete document and page list. -/
theorem extract_pages_deterministic_witness :
    extract_pages_from_pdf (PdfDoc.mk false false [10, 20]) [2, 1]
      = extract_pages_from_pdf (PdfDoc.mk false false [10, 20]) [2, 1] :=
  extract_pages_deterministic (PdfDoc.mk false false [10, 20])
    (PdfDoc.mk false false [10, 20]) [2, 1] [2, 1] rfl rfl

/-- C10: on a readable source, the empty page list succeeds and produces a
document with zero pages. -/
theorem extract_pages_empty_list {α : Type} [Inhabited α]
    (doc : PdfDoc α) (hr : readable doc) :
    ∃ out : OutDoc α, extract_pages_from_pdf doc [] = .ok out ∧ out.pages = [] := by
  have hcond : (doc.encrypted && !doc.emptyPasswordWorks) = false := by
    rcases hr with h | h <;> simp [h]
  exact ⟨_, extract_ok doc [] hcond rfl, rfl⟩

/-- Closed instance of C10 on a concrete 2-page document. -/
theorem extract_pages_empty_list_witness :
    ∃ out : OutDoc Nat,
      extract_pages_from_pdf (PdfDoc.mk false false [10, 20]) [] = .ok out ∧
      out.pages = [] :=
  extract_pages_empty_list (PdfDoc.mk false false [10, 20]) (Or.inl rfl)

/-- If some comma-token of the list, once stripped, is nonempty and fails
to parse, then the whole token list fails to parse (with the first failing
token's error). -/
theorem parseParts_error_of_mem (parts : List (List Char)) (part : List Char)
    (err : ParseError) (hmem : part ∈ parts)
    (hne : (pyStrip part).isEmpty = false)
    (hbad : parseToken (pyStrip part) = .error err) :
    ∃ e, parseParts parts = .error e := by
  induction parts with
  | nil => cases hmem
  | cons hd tl ih =>
    rcases List.mem_cons.mp hmem with rfl | hmem'
    · exact ⟨err, by simp [parseParts, hne, hbad]⟩
    · by_cases hhd : (pyStrip hd).isEmpty
      · simpa [parseParts, hhd] using ih hmem'
      · cases ht : parseToken (pyStrip hd) with
        | error e => exact ⟨e, by simp [parseParts, hhd, ht]⟩
        | ok zs =>
          obtain ⟨e, he⟩ := ih hmem'
          exact ⟨e, by simp [parseParts, hhd, ht, he]⟩

/-- C3 counterexample: the token `-3` is NOT parsed as the integer `-3`;
because it contains a dash it is treated as a range whose left endpoint is
the empty string, and the empty string is not a valid integer, so parsing
fails. -/
theorem parse_negative_literal_counterexample :
    parse_page_spec "-3".data ≠ Except.ok [-3] := by decide

/-- C3 amended: every token that is a negative integer literal — one that
strips to a dash followed by a valid digit string — makes the parse fail
with `ParseError` (the dash is taken as the range separator, leaving an
empty, invalid left endpoint); and bounds checking of negative values is
indeed deferred to the page extractor, which rejects any page list
containing a negative entry as out of range.  Concretely `-3` fails to
parse while the descending range `3--1` still carries negative numbers
into the result. -/
theorem parse_negative_literal_amended {α : Type} [Inhabited α]
    (spec part rest : List Char) (doc : PdfDoc α) (l : List Int) (q : Int)
    (hmem : part ∈ splitChar ',' spec)
    (hstrip : pyStrip part = '-' :: rest)
    (_hdig : validDigits rest = true)
    (hr : readable doc) (hql : q ∈ l) (hq : q < 0) :
    (∃ e, parse_page_spec spec = .error e) ∧
    (∃ p, extract_pages_from_pdf doc l = .error (.outOfRange p doc.pages.length)) ∧
    parse_page_spec "-3".data = .error (.invalidInt []) ∧
    parse_page_spec "3--1".data = .ok [3, 2, 1, 0, -1] := by
  have hne : (pyStrip part).isEmpty = false := by rw [hstrip]; rfl
  have htok : parseToken ('-' :: rest) = .error (.invalidInt []) := by
    have hcont : ('-' :: rest).contains '-' = true := by simp
    have hsf : splitFirst '-' ('-' :: rest) = ([], rest) := by simp [splitFirst]
    have hnil : pyInt ([] : List Char) = none := by decide
    cases hpy : pyInt rest <;>
      simp only [parseToken, hcont, if_true, hsf, hnil, hpy]
  have hbad : parseToken (pyStrip part) = .error (.invalidInt []) := by
    rw [hstrip]; exact htok
  have hspec : spec.isEmpty = false := by
    cases spec with
    | nil =>
      simp [splitChar] at hmem
      subst hmem
      rw [show pyStrip [] = [] from rfl] at hstrip
      cases hstrip
    | cons c cs => rfl
  refine ⟨?_, ?_, by decide, by decide⟩
  · rw [parse_page_spec, hspec]
    simpa using parseParts_error_of_mem _ part (.invalidInt []) hmem hne hbad
  · have hcond : (doc.encrypted && !doc.emptyPasswordWorks) = false := by
      rcases hr with h | h <;> simp [h]
    cases hf : l.find? (fun p => p < 1 || p > ((doc.pages.length : Int))) with
    | none =>
      exfalso
      have := List.find?_eq_none.mp hf q hql
      simp only [Bool.or_eq_true, decide_eq_true_eq, not_or] at this
      omega
    | some p => exact ⟨p, extract_err doc l p hcond hf⟩

/-- Closed instance of the amended C3: the literal `-3` as sole token
fails to parse, and the extractor rejects the page list `[-3]` on a 1-page
document as out of range. -/
theorem parse_negative_literal_amended_witness :
    (∃ e, parse_page_spec "-3".data = .error e) ∧
    (∃ p, extract_pages_from_pdf (PdfDoc.mk false false ([10] : List Nat)) [-3]
        = .error (.outOfRange p 1)) ∧
    parse_page_spec "-3".data = .error (.invalidInt []) ∧
    parse_page_spec "3--1".data = .ok [3, 2, 1, 0, -1] :=
  parse_negative_literal_amended "-3".data "-3".data "3".data
    (PdfDoc.mk false false ([10] : List Nat)) [-3] (-3)
    (by decide) (by decide) (by decide) (Or.inl rfl) (by decide) (by decide)

/-- C4: a token containing a dash, both of whose substrings around the
first dash parse as integers `a` and `b`, contributes the inclusive
sequence from `a` to `b`, ascending when `a ≤ b` and descending otherwise;
concretely `7-4` gives `[7, 6, 5, 4]` and `1,3-5,10` gives
`[1, 3, 4, 5, 10]`. -/
theorem parse_range_token (part s e : List Char) (a b : Int)
    (hc : part.contains '-' = true)
    (hsplit : splitFirst '-' part = (s, e))
    (ha : pyInt s = some a) (hb : pyInt e = some b) :
    parseToken part = .ok (rangeIncl a b) ∧
    (rangeIncl a b).length = (if a ≤ b then b - a + 1 else a - b + 1).toNat ∧
    (∀ i : Nat, i < (rangeIncl a b).length →
      (rangeIncl a b)[i]? = some (if a ≤ b then a + (i : Int) else a - (i : Int))) ∧
    parse_page_spec "7-4".data = .ok [7, 6, 5, 4] ∧
    parse_page_spec "1,3-5,10".data = .ok [1, 3, 4, 5, 10] := by
  refine ⟨?_, ?_, ?_, by decide, by decide⟩
  · simp only [parseToken, hsplit, ha, hb]
    rw [if_pos hc]
  · rcases le_or_lt a b with h | h
    · unfold rangeIncl
      rw [if_pos h, if_pos h, List.length_map, List.length_range]
    · unfold rangeIncl
      rw [if_neg (not_le.mpr h), if_neg (not_le.mpr h), List.length_map,
        List.length_range]
  · intro i hi
    rcases le_or_lt a b with h | h
    · unfold rangeIncl at hi ⊢
      rw [if_pos h] at hi ⊢
      rw [List.length_map, List.length_range] at hi
      rw [List.getElem?_map, List.getElem?_range hi, if_pos h]
      rfl
    · unfold rangeIncl at hi ⊢
      rw [if_neg (not_le.mpr h)] at hi ⊢
      rw [List.length_map, List.length_range] at hi
      rw [List.getElem?_map, List.getElem?_range hi, if_neg (not_le.mpr h)]
      rfl

/-- Closed instance of C4 on the token `3-5`. -/
theorem parse_range_token_witness :
    parseToken "3-5".data = .ok (rangeIncl 3 5) ∧
    (rangeIncl 3 5).length
      = (if (3 : Int) ≤ 5 then (5 : Int) - 3 + 1 else (3 : Int) - 5 + 1).toNat ∧
    (∀ i : Nat, i < (rangeIncl 3 5).length →
      (rangeIncl 3 5)[i]? = some (if (3 : Int) ≤ 5 then 3 + (i : Int) else 3 - (i : Int))) ∧
    parse_page_spec "7-4".data = .ok [7, 6, 5, 4] ∧
    parse_page_spec "1,3-5,10".data = .ok [1, 3, 4, 5, 10] :=
  parse_range_token "3-5".data "3".data "5".data 3 5 (by decide) (by decide)
    (by decide) (by decide)

/-- C5: an input one of whose comma-tokens is (after stripping) nonempty
and malformed makes the whole parse fail with a `ParseError` — no silent
skipping, no partial result; concretely `a-3`, `x`, `-` and `3-` all
fail. -/
theorem parse_malformed_token_fails (spec part : List Char) (err : ParseError)
    (hmem : part ∈ splitChar ',' spec)
    (hne : (pyStrip part).isEmpty = false)
    (hbad : parseToken (pyStrip part) = .error err) :
    (∃ e, parse_page_spec spec = .error e) ∧
    parse_page_spec "a-3".data = .error (.invalidInt "a".data) ∧
    parse_page_spec "x".data = .error (.invalidInt "x".data) ∧
    parse_page_spec "-".data = .error (.invalidInt []) ∧
    parse_page_spec "3-".data = .error (.invalidInt []) := by
  refine ⟨?_, by decide, by decide, by decide, by decide⟩
  have hspec : spec.isEmpty = false := by
    cases spec with
    | nil =>
      simp [splitChar] at hmem
      subst hmem
      exact absurd hne (by decide)
    | cons c cs => rfl
  rw [parse_page_spec, hspec]
  simpa using parseParts_error_of_mem _ part err hmem hne hbad

/-- Closed instance of C5 on the input `x`. -/
theorem parse_malformed_token_fails_witness :
    (∃ e, parse_page_spec "x".data = .error e) ∧
    parse_page_spec "a-3".data = .error (.invalidInt "a".data) ∧
    parse_page_spec "x".data = .error (.invalidInt "x".data) ∧
    parse_page_spec "-".data = .error (.invalidInt []) ∧
    parse_page_spec "3-".data = .error (.invalidInt []) :=
  parse_malformed_token_fails "x".data "x".data (.invalidInt "x".data)
    (by decide) (by decide) (by decide)

/-- C7: parsing concatenates token contributions in input order — if two
token lists parse to `xs` and `ys`, their concatenation parses to
`xs ++ ys` — so order is preserved and duplicates are kept verbatim, with
no deduplication and no sorting; concretely `2,2,2` gives `[2, 2, 2]`. -/
theorem parse_preserves_order_and_duplicates (ps qs : List (List Char))
    (xs ys : List Int)
    (hp : parseParts ps = .ok xs) (hq : parseParts qs = .ok ys) :
    parseParts (ps ++ qs) = .ok (xs ++ ys) ∧
    parse_page_spec "2,2,2".data = .ok [2, 2, 2] := by
  refine ⟨?_, by decide⟩
  induction ps generalizing xs with
  | nil =>
    simp only [parseParts] at hp
    cases hp
    simpa using hq
  | cons hd tl ih =>
    by_cases hhd : (pyStrip hd).isEmpty
    · rw [List.cons_append]
      simp only [parseParts, hhd, if_true] at hp ⊢
      exact ih xs hp
    · cases ht : parseToken (pyStrip hd) with
      | error e => simp [parseParts, hhd, ht] at hp
      | ok zs =>
        cases hrest : parseParts tl with
        | error e => simp [parseParts, hhd, ht, hrest] at hp
        | ok ws =>
          simp only [parseParts, hhd, if_false, ht, hrest] at hp
          cases hp
          rw [List.cons_append]
          simp [parseParts, hhd, ht, ih ws hrest, List.append_assoc]

/-- Closed instance of C7 concatenating the token lists of `2` and `2`. -/
theorem parse_preserves_order_and_duplicates_witness :
    parseParts (["2".data] ++ ["2".data]) = .ok ([2] ++ [2]) ∧
    parse_page_spec "2,2,2".data = .ok [2, 2, 2] :=
  parse_preserves_order_and_duplicates ["2".data] ["2".data] [2] [2]
    (by decide) (by decide)

/-- C8: the input is split on commas and each token is stripped — a token
that strips to empty contributes nothing to the parse, the empty input
yields the empty list, and stray commas or spaces are tolerated;
concretely `1,,3` splits into `1`, an empty token and `3` and parses to
`[1, 3]`. -/
theorem parse_splits_trims_discards (part : List Char) (parts : List (List Char))
    (h : (pyStrip part).isEmpty = true) :
    parseParts (part :: parts) = parseParts parts ∧
    (∀ s : List Char, s.isEmpty = false →
      parse_page_spec s = parseParts (splitChar ',' s)) ∧
    parse_page_spec "".data = .ok [] ∧
    splitChar ',' "1,,3".data = ["1".data, [], "3".data] ∧
    pyStrip " 1 ".data = "1".data ∧
    parse_page_spec "1,,3".data = .ok [1, 3] := by
  refine ⟨?_, ?_, by decide, by decide, by decide, by decide⟩
  · simp [parseParts, h]
  · intro s hs
    simp [parse_page_spec, hs]

/-- Closed instance of C8 on the all-whitespace token of an input like
`1, ,3`. -/
theorem parse_splits_trims_discards_witness :
    parseParts (" ".data :: ["3".data]) = parseParts ["3".data] ∧
    (∀ s : List Char, s.isEmpty = false →
      parse_page_spec s = parseParts (splitChar ',' s)) ∧
    parse_page_spec "".data = .ok [] ∧
    splitChar ',' "1,,3".data = ["1".data, [], "3".data] ∧
    pyStrip " 1 ".data = "1".data ∧
    parse_page_spec "1,,3".data = .ok [1, 3] :=
  parse_splits_trims_discards " ".data ["3".data] (by decide)

end PdfPageSplitter
